import Mathlib

/-!
Verification of the Conway's Game of Life grid engine (`src/conways.rs`).

The embedding mirrors the Rust source:
* `CellState` is the two-valued cell enumeration.
* `Grid` holds `grid : Vec<Vec<CellState>>` plus `width`/`height`, modelled
  with `List (List CellState)` and `Nat` dimensions.
* `Grid::get` and `Grid::set` use raw indexing `self.grid[y][x]`, which
  panics when an index is out of range; panicking calls are modelled as
  `none` / failing `Option` results (the original grid value is untouched).
* `Grid::count_neighbors` computes `nx = x as i32 + dx` and
  `ny = y as i32 + dy` and then performs checked lookups
  `self.grid.get(ny as usize).and_then(|row| row.get(nx as usize))`.  The
  casts are modelled bit-faithfully: `toI32` is the truncating
  `usize → i32` cast, `addI32` is two's-complement `i32` addition (the
  wrapping semantics of a build with overflow checks disabled; a checked
  build panics at exactly the inputs where `addI32` wraps), and
  `i32ToUsize` is the sign-extending `i32 → usize` cast.  For coordinates
  below `2^31 - 1` all three are the identity embedding into `Int`/`Nat`;
  at and beyond that boundary they truncate and wrap exactly as the
  hardware does, which the theorems below account for.
* `Grid::next_cell_generation` builds a fresh array from the current one and
  swaps it in; functionally this is `Grid → Grid`.
-/

/-- Cell state enumeration from `src/conways.rs`: `Dead` or `Alive`. -/
inductive CellState where
  | Dead : CellState
  | Alive : CellState
deriving DecidableEq, Repr

/-- The grid structure from `src/conways.rs`: a vector of rows of cells plus
the stored `width` and `height`. -/
structure Grid where
  grid : List (List CellState)
  width : Nat
  height : Nat
deriving DecidableEq, Repr

namespace Grid

/-- Embeds `Grid::new`: `vec![vec![CellState::Dead; width]; height]` with the
given dimensions.  The source performs no dimension check. -/
def new (width height : Nat) : Grid :=
  { grid := List.replicate height (List.replicate width CellState.Dead)
    width := width
    height := height }

/-- Embeds `Grid::set`: `self.grid[y][x] = state`.  Raw indexing panics when
`y` is out of range of the outer vector or `x` out of range of the row; a
panic is modelled as `none` (no updated grid is produced). -/
def set (g : Grid) (x y : Nat) (state : CellState) : Option Grid :=
  match g.grid[y]? with
  | none => none
  | some row =>
    if x < row.length then
      some { g with grid := g.grid.set y (row.set x state) }
    else none

/-- Embeds `Grid::get`: `self.grid[y][x].clone()`.  Raw indexing panics on an
out-of-range index, modelled as `none`. -/
def get (g : Grid) (x y : Nat) : Option CellState :=
  g.grid[y]?.bind fun row => row[x]?

/-- Embeds the truncating Rust cast `x as i32` of a 64-bit `usize`
coordinate: the low 32 bits of `n`, read as a two's-complement signed
value. -/
def toI32 (n : Nat) : Int :=
  if n % 2 ^ 32 < 2 ^ 31 then (n % 2 ^ 32 : Nat) else (n % 2 ^ 32 : Nat) - 2 ^ 32

/-- Embeds the `i32` addition `x as i32 + dx` with two's-complement wrapping
(the semantics of a build with overflow checks disabled; a build with checks
enabled panics at exactly the inputs where this function wraps — the theorems
below stay inside the overflow-free range, where both builds agree and this
is plain addition). -/
def addI32 (a b : Int) : Int :=
  (a + b + 2 ^ 31) % 2 ^ 32 - 2 ^ 31

/-- Embeds the sign-extending Rust cast `nx as usize` of an `i32` index: a
negative value becomes `2^64 + nx`, far beyond any representable vector
length. -/
def i32ToUsize (a : Int) : Nat :=
  (a % 2 ^ 64).toNat

/-- Embeds the checked neighbor lookup inside `Grid::count_neighbors`:
`self.grid.get(ny as usize).and_then(|row| row.get(nx as usize))`, taking
the already-computed `i32` values `nx`, `ny`. -/
def lookup (g : Grid) (nx ny : Int) : Option CellState :=
  g.grid[i32ToUsize ny]?.bind fun row => row[i32ToUsize nx]?

/-- The `(dy, dx)` offset pairs visited by the two nested loops of
`Grid::count_neighbors` (`for dy in -1..=1 { for dx in -1..=1 { ... } }`),
with the center `(0, 0)` skipped, in loop order. -/
def neighborOffsets : List (Int × Int) :=
  [(-1, -1), (-1, 0), (-1, 1), (0, -1), (0, 1), (1, -1), (1, 0), (1, 1)]

/-- Embeds `Grid::count_neighbors`: for each offset, compute
`nx = x as i32 + dx` and `ny = y as i32 + dy` with the faithful cast and
wrap semantics, and add one when the checked lookup at `(nx, ny)` finds an
`Alive` cell. -/
def count_neighbors (g : Grid) (x y : Nat) : Nat :=
  neighborOffsets.foldl
    (fun count d =>
      if g.lookup (addI32 (toI32 x) d.2) (addI32 (toI32 y) d.1)
          = some CellState.Alive
      then count + 1 else count)
    0

/-- Embeds the per-cell `match (current_state, neighbors)` of
`Grid::next_cell_generation`, arm by arm in order:
`(Alive, 0..=1) => Dead`, `(Alive, 2..=3) => Alive`, `(Alive, 4..=8) => Dead`,
`(Dead, 3) => Alive`, `(state, _) => state.clone()`. -/
def nextState (current : CellState) (neighbors : Nat) : CellState :=
  if current = CellState.Alive ∧ neighbors ≤ 1 then CellState.Dead
  else if current = CellState.Alive ∧ 2 ≤ neighbors ∧ neighbors ≤ 3 then
    CellState.Alive
  else if current = CellState.Alive ∧ 4 ≤ neighbors ∧ neighbors ≤ 8 then
    CellState.Dead
  else if current = CellState.Dead ∧ neighbors = 3 then CellState.Alive
  else current

/-- Embeds `Grid::next_cell_generation`: build a fresh `height × width` array
whose cell `(x, y)` is the transition applied to the current cell and its
neighbor count, then swap it in.  The source reads the current cell with
`self.grid[y][x]`, which is in range for every grid satisfying the shape
invariant `WF` (established by `new`, preserved by every operation); the model
reads it through `get` with a `Dead` default and agrees with the source
wherever the source does not panic. -/
def next_cell_generation (g : Grid) : Grid :=
  { g with
    grid :=
      (List.range g.height).map fun y =>
        (List.range g.width).map fun x =>
          nextState ((g.get x y).getD CellState.Dead) (g.count_neighbors x y) }

/-- Shape invariant of the grid: the outer vector has `height` rows and every
row has `width` cells. -/
def WF (g : Grid) : Prop :=
  g.grid.length = g.height ∧ ∀ row ∈ g.grid, row.length = g.width

instance (g : Grid) : Decidable (WF g) := by
  unfold WF; infer_instance

/-- Total number of stored cells. -/
def cellCount (g : Grid) : Nat :=
  (g.grid.map List.length).sum

/-- Modelled from the spec: neighbor counting as §4.1 states it — sum over
the 8 offsets `(dy, dx)`, where an offset whose target lies outside
`[0, width) × [0, height)` contributes zero (no wraparound) and an in-range
target contributes one exactly when it is `Alive`. -/
def specNeighborCount (g : Grid) (x y : Nat) : Nat :=
  (neighborOffsets.map fun d =>
    if 0 ≤ (x : Int) + d.2 ∧ (x : Int) + d.2 < (g.width : Int) ∧
        0 ≤ (y : Int) + d.1 ∧ (y : Int) + d.1 < (g.height : Int) ∧
        g.get ((x : Int) + d.2).toNat ((y : Int) + d.1).toNat
          = some CellState.Alive
    then 1 else 0).sum

/-- Modelled from the spec: the Game-of-Life rule table of §4.1 — an `Alive`
cell with 0 or 1 neighbors dies, with 2 or 3 survives, with 4 through 8 dies;
a `Dead` cell with exactly 3 neighbors becomes `Alive` and otherwise stays
`Dead`. -/
def ruleTable (current : CellState) (neighbors : Nat) : CellState :=
  match current with
  | CellState.Alive =>
    if neighbors ≤ 1 then CellState.Dead
    else if neighbors ≤ 3 then CellState.Alive
    else CellState.Dead
  | CellState.Dead =>
    if neighbors = 3 then CellState.Alive else CellState.Dead

/-- An operation on the grid: a single-cell write or one generation step. -/
inductive Op where
  | write (x y : Nat) (s : CellState) : Op
  | step : Op

/-- Applies one operation; a panicking `set` is `none`. -/
def applyOp (g : Grid) : Op → Option Grid
  | Op.write x y s => g.set x y s
  | Op.step => some g.next_cell_generation

/-- Applies a sequence of operations left to right. -/
def applyOps (g : Grid) (ops : List Op) : Option Grid :=
  ops.foldlM applyOp g

/-- A row of width 2^32 + 2 whose only Alive cell sits at column 0. -/
def wideRow : List CellState :=
  CellState.Alive :: List.replicate (2 ^ 32 + 1) CellState.Dead

/-- A well-formed 3-row grid of width 2^32 + 2 whose only Alive cells sit in
column 0 — wide enough that the truncating `as i32` cast maps the in-range
column 2^32 to 0, so the source's neighbor lookups for that column wrap to
the opposite edge of the grid. -/
def wideGrid : Grid :=
  Grid.mk [wideRow, wideRow, wideRow] (2 ^ 32 + 2) 3

end Grid

namespace Grid

/-- Value of the truncating cast on coordinates below 2^31: the identity. -/
theorem toI32_of_lt {n : Nat} (h : n < 2 ^ 31) : toI32 n = n := by
  unfold toI32; split <;> omega

/-- Value of the wrapping `i32` addition when the exact sum is in range:
plain addition (here a build with overflow checks enabled agrees, since it
only panics when the exact sum leaves the `i32` range). -/
theorem addI32_of_bounds {a b : Int} (h1 : -(2 ^ 31) ≤ a + b)
    (h2 : a + b < 2 ^ 31) : addI32 a b = a + b := by
  unfold addI32; omega

/-- Value of the sign-extending cast on nonnegative in-range values. -/
theorem i32ToUsize_of_nonneg {a : Int} (h1 : 0 ≤ a) (h2 : a < 2 ^ 64) :
    i32ToUsize a = a.toNat := by
  unfold i32ToUsize; omega

/-- Value of the sign-extending cast at -1: the largest `usize`. -/
theorem i32ToUsize_neg_one : i32ToUsize (-1) = 2 ^ 64 - 1 := by
  unfold i32ToUsize; omega

/-- Folding the neighbor-counting step of `count_neighbors` over any offset
list starting from `a` adds the number of offsets whose lookup is `Alive`. -/
theorem count_fold_eq_sum (g : Grid) (x y : Nat) (l : List (Int × Int)) (a : Nat) :
    l.foldl
      (fun count d =>
        if g.lookup (addI32 (toI32 x) d.2) (addI32 (toI32 y) d.1)
            = some CellState.Alive
        then count + 1 else count) a
      = a + (l.map fun d =>
          if g.lookup (addI32 (toI32 x) d.2) (addI32 (toI32 y) d.1)
              = some CellState.Alive
          then 1 else 0).sum := by
  induction l generalizing a with
  | nil => simp
  | cons hd tl ih =>
    simp only [List.foldl_cons, List.map_cons, List.sum_cons]
    rw [ih]
    split <;> omega

/-- Rows reached by a successful outer lookup have length `width` on a
well-formed grid. -/
theorem row_length_of_WF {g : Grid} (hwf : g.WF) {y : Nat} {row : List CellState}
    (h : g.grid[y]? = some row) : row.length = g.width :=
  hwf.2 row (List.getElem?_mem h)

/-- Offsets taken from the neighbor list are between -1 and 1 in each
component. -/
theorem mem_neighborOffsets_bounds {d : Int × Int} (hd : d ∈ neighborOffsets) :
    -1 ≤ d.1 ∧ d.1 ≤ 1 ∧ -1 ≤ d.2 ∧ d.2 ≤ 1 := by
  simp only [neighborOffsets, List.mem_cons, List.not_mem_nil, or_false] at hd
  rcases hd with rfl | rfl | rfl | rfl | rfl | rfl | rfl | rfl <;> norm_num

/-- Characterizes a successful `Alive` neighbor lookup on a well-formed grid
whose dimensions fit in `i32` range, for index values reachable from an
in-`i32`-range center (between -1 and 2^31 - 1): the target must lie inside
`[0, width) × [0, height)` and hold `Alive`.  A -1 index sign-extends to
2^64 - 1, beyond every row and column of such a grid. -/
theorem lookup_alive_iff (g : Grid) (hwf : g.WF)
    (hW : g.width < 2 ^ 31) (hH : g.height < 2 ^ 31) (nx ny : Int)
    (hnx1 : -1 ≤ nx) (hnx2 : nx < 2 ^ 31) (hny1 : -1 ≤ ny) (hny2 : ny < 2 ^ 31) :
    g.lookup nx ny = some CellState.Alive ↔
      (0 ≤ nx ∧ nx < (g.width : Int) ∧ 0 ≤ ny ∧ ny < (g.height : Int) ∧
        g.get nx.toNat ny.toNat = some CellState.Alive) := by
  obtain ⟨hlen, hrow⟩ := hwf
  unfold lookup get
  by_cases hy0 : 0 ≤ ny
  · rw [i32ToUsize_of_nonneg hy0 (by omega)]
    by_cases hx0 : 0 ≤ nx
    · rw [i32ToUsize_of_nonneg hx0 (by omega)]
      constructor
      · intro h
        rcases hb : g.grid[ny.toNat]? with _ | row
        · rw [hb] at h; simp at h
        · rw [hb] at h
          simp only [Option.some_bind] at h
          have hyl : ny.toNat < g.grid.length := by
            rcases List.getElem?_eq_some_iff.1 hb with ⟨hlt, _⟩
            exact hlt
          have hxl : nx.toNat < row.length := by
            rcases List.getElem?_eq_some_iff.1 h with ⟨hlt, _⟩
            exact hlt
          have hw : row.length = g.width := hrow row (List.getElem?_mem hb)
          refine ⟨hx0, ?_, hy0, ?_, ?_⟩
          · rw [← Int.toNat_lt hx0]; omega
          · rw [← Int.toNat_lt hy0]; omega
          · simpa using h
      · rintro ⟨h1, h2, h3, h4, h5⟩
        exact h5
    · have hxm1 : nx = -1 := by omega
      subst hxm1
      rw [i32ToUsize_neg_one]
      constructor
      · intro h
        rcases hb : g.grid[ny.toNat]? with _ | row
        · rw [hb] at h; simp at h
        · rw [hb] at h
          simp only [Option.some_bind] at h
          have hw : row.length = g.width := hrow row (List.getElem?_mem hb)
          rw [List.getElem?_eq_none (by omega)] at h
          simp at h
      · rintro ⟨h1, h2, h3, h4, h5⟩
        omega
  · have hym1 : ny = -1 := by omega
    subst hym1
    rw [i32ToUsize_neg_one]
    rw [List.getElem?_eq_none (by omega)]
    constructor
    · intro h; simp at h
    · rintro ⟨h1, h2, h3, h4, h5⟩
      omega

end Grid

namespace Grid

/-- Rewrites `count_neighbors` as a sum of per-offset indicators. -/
theorem count_neighbors_eq_sum (g : Grid) (x y : Nat) :
    g.count_neighbors x y
      = (neighborOffsets.map fun d =>
          if g.lookup (addI32 (toI32 x) d.2) (addI32 (toI32 y) d.1)
              = some CellState.Alive
          then 1 else 0).sum := by
  unfold count_neighbors
  rw [count_fold_eq_sum]
  omega

/-- Neighbor counts never exceed the number of offsets, 8. -/
theorem count_neighbors_le_eight (g : Grid) (x y : Nat) :
    g.count_neighbors x y ≤ 8 := by
  rw [count_neighbors_eq_sum]
  unfold neighborOffsets
  simp only [List.map_cons, List.map_nil, List.sum_cons, List.sum_nil]
  split_ifs <;> omega

/-- On a well-formed grid whose dimensions fit in `i32` range, for a center
below the `i32` overflow boundary (so the casts preserve values and the
offset additions cannot overflow in any build), the source's neighbor count
agrees with the spec-level sum over in-range `Alive` targets. -/
theorem count_neighbors_eq_spec (g : Grid) (hwf : g.WF)
    (hW : g.width < 2 ^ 31) (hH : g.height < 2 ^ 31) (x y : Nat)
    (hx : x ≤ 2 ^ 31 - 2) (hy : y ≤ 2 ^ 31 - 2) :
    g.count_neighbors x y = g.specNeighborCount x y := by
  rw [count_neighbors_eq_sum]
  unfold specNeighborCount
  congr 1
  refine List.map_congr_left ?_
  intro d hd
  obtain ⟨hd1, hd2, hd3, hd4⟩ := mem_neighborOffsets_bounds hd
  have hax : addI32 (toI32 x) d.2 = (x : Int) + d.2 := by
    rw [toI32_of_lt (by omega)]
    exact addI32_of_bounds (by omega) (by omega)
  have hay : addI32 (toI32 y) d.1 = (y : Int) + d.1 := by
    rw [toI32_of_lt (by omega)]
    exact addI32_of_bounds (by omega) (by omega)
  rw [hax, hay]
  rw [if_congr
    (lookup_alive_iff g hwf hW hH _ _ (by omega) (by omega) (by omega) (by omega))
    rfl rfl]

/-- Lookups on a freshly constructed grid never find an `Alive` cell,
whatever the index values. -/
theorem lookup_new_ne_alive (w h : Nat) (nx ny : Int) :
    ¬ (Grid.new w h).lookup nx ny = some CellState.Alive := by
  unfold lookup new
  simp only [List.getElem?_replicate]
  split_ifs <;> simp [List.getElem?_replicate]

/-- Neighbor counts on a freshly constructed (all-`Dead`) grid are zero. -/
theorem count_neighbors_new (w h : Nat) (x y : Nat) :
    (Grid.new w h).count_neighbors x y = 0 := by
  rw [count_neighbors_eq_sum]
  unfold neighborOffsets
  simp [lookup_new_ne_alive]

/-- The source's per-cell transition agrees with the spec's rule table for
every reachable neighbor count. -/
theorem nextState_eq_ruleTable (c : CellState) (n : Nat) (hn : n ≤ 8) :
    nextState c n = ruleTable c n := by
  cases c <;> simp only [nextState, ruleTable] <;>
    split_ifs <;> simp_all <;> omega

end Grid

namespace Grid

/-- Reading an in-range cell of the next generation yields the transition
applied to the prior cell and its prior-grid neighbor count. -/
theorem get_next (g : Grid) {x y : Nat} (hx : x < g.width) (hy : y < g.height) :
    g.next_cell_generation.get x y
      = some (nextState ((g.get x y).getD CellState.Dead)
          (g.count_neighbors x y)) := by
  unfold next_cell_generation get
  simp [List.getElem?_map, List.getElem?_range hy, List.getElem?_range hx]

/-- Freshly constructed grids satisfy the shape invariant. -/
theorem WF_new (w h : Nat) : (Grid.new w h).WF := by
  constructor
  · simp [new]
  · intro row hrow
    simp only [new] at hrow
    rw [List.eq_of_mem_replicate hrow]
    simp [new]

/-- The generation step always rebuilds a grid satisfying the invariant. -/
theorem WF_next (g : Grid) : g.next_cell_generation.WF := by
  constructor
  · simp [next_cell_generation]
  · intro row hrow
    simp only [next_cell_generation, List.mem_map] at hrow
    obtain ⟨y, _, rfl⟩ := hrow
    simp [next_cell_generation]

/-- The generation step keeps the stored dimensions. -/
theorem next_width_height (g : Grid) :
    g.next_cell_generation.width = g.width ∧
      g.next_cell_generation.height = g.height :=
  ⟨rfl, rfl⟩

/-- Total cell count of a well-formed grid. -/
theorem cellCount_of_WF (g : Grid) (hwf : g.WF) :
    g.cellCount = g.height * g.width := by
  obtain ⟨hlen, hrow⟩ := hwf
  unfold cellCount
  have hall : ∀ a ∈ g.grid.map List.length, a = g.width := by
    intro a ha
    simp only [List.mem_map] at ha
    obtain ⟨row, hr, rfl⟩ := ha
    exact hrow row hr
  rw [List.eq_replicate_of_mem hall]
  simp [hlen, Nat.mul_comm]

end Grid

namespace Grid

/-- A well-formed grid's in-range reads succeed. -/
theorem get_some_of_lt (g : Grid) (hwf : g.WF) {x y : Nat}
    (hx : x < g.width) (hy : y < g.height) : ∃ c, g.get x y = some c := by
  obtain ⟨hlen, hrow⟩ := hwf
  have hylt : y < g.grid.length := by omega
  unfold get
  rcases hb : g.grid[y]? with _ | row
  · rw [List.getElem?_eq_none_iff] at hb; omega
  · have hw : row.length = g.width := hrow row (List.getElem?_mem hb)
    have hxlt : x < row.length := by omega
    rcases hc : row[x]? with _ | c
    · rw [List.getElem?_eq_none_iff] at hc; omega
    · exact ⟨c, by simp [hc]⟩

/-- Behavior of a successful in-range `set`: the written cell changes, all
other cells and the dimensions are untouched, and the invariant is kept. -/
theorem set_spec (g : Grid) (hwf : g.WF) {x y : Nat}
    (hx : x < g.width) (hy : y < g.height) (s : CellState) :
    ∃ g', g.set x y s = some g' ∧ g'.width = g.width ∧ g'.height = g.height ∧
      g'.WF ∧ g'.get x y = some s ∧
      ∀ u v : Nat, ¬(u = x ∧ v = y) → g'.get u v = g.get u v := by
  obtain ⟨hlen, hrow⟩ := hwf
  have hylt : y < g.grid.length := by omega
  rcases hb : g.grid[y]? with _ | row
  · rw [List.getElem?_eq_none_iff] at hb; omega
  have hw : row.length = g.width := hrow row (List.getElem?_mem hb)
  have hxlt : x < row.length := by omega
  refine ⟨{ g with grid := g.grid.set y (row.set x s) }, ?_, rfl, rfl, ?_, ?_, ?_⟩
  · unfold set
    rw [hb]
    simp [hxlt]
  · constructor
    · simpa using hlen
    · intro r hr
      rcases List.mem_or_eq_of_mem_set hr with hmem | rfl
      · exact hrow r hmem
      · simpa using hw
  · unfold get
    simp only [List.getElem?_set_self (by simpa using hylt)]
    simp [List.getElem?_set_self (by simpa using hxlt)]
  · intro u v huv
    unfold get
    by_cases hvy : v = y
    · subst hvy
      have hux : u ≠ x := fun h => huv ⟨h, rfl⟩
      simp only [List.getElem?_set_self (by simpa using hylt), hb]
      simp [List.getElem?_set_ne (Ne.symm hux)]
    · simp [List.getElem?_set_ne (fun h => hvy h.symm)]

end Grid

namespace Grid

/-- Any successful `set` keeps the dimensions and the shape invariant. -/
theorem set_some_preserves {g g' : Grid} {x y : Nat} {s : CellState}
    (hwf : g.WF) (h : g.set x y s = some g') :
    g'.WF ∧ g'.width = g.width ∧ g'.height = g.height := by
  unfold set at h
  rcases hb : g.grid[y]? with _ | row <;> rw [hb] at h
  · simp at h
  · have h2 : (if x < row.length then
        some { g with grid := g.grid.set y (row.set x s) } else none) = some g' := h
    split_ifs at h2 with hxlt
    obtain rfl := Option.some.inj h2
    obtain ⟨hlen, hrow⟩ := hwf
    refine ⟨⟨by simpa using hlen, ?_⟩, rfl, rfl⟩
    intro r hr
    rcases List.mem_or_eq_of_mem_set hr with hmem | rfl
    · exact hrow r hmem
    · simpa using hrow row (List.getElem?_mem hb)

/-- Any successful operation sequence keeps the dimensions and the shape
invariant. -/
theorem applyOps_preserves (ops : List Op) :
    ∀ g g' : Grid, g.WF → applyOps g ops = some g' →
      g'.WF ∧ g'.width = g.width ∧ g'.height = g.height := by
  induction ops with
  | nil =>
    intro g g' hwf h
    obtain rfl : g = g' := by simpa [applyOps] using h
    exact ⟨hwf, rfl, rfl⟩
  | cons op tl ih =>
    intro g g' hwf h
    rw [applyOps, List.foldlM_cons] at h
    rcases hstep : applyOp g op with _ | g1 <;> rw [hstep] at h
    · exact Option.noConfusion (show (none : Option Grid) = some g' from h)
    · have h : applyOps g1 tl = some g' := h
      have h1 : g1.WF ∧ g1.width = g.width ∧ g1.height = g.height := by
        cases op with
        | write x y s => exact set_some_preserves hwf hstep
        | step =>
          obtain rfl : g.next_cell_generation = g1 := Option.some.inj hstep
          exact ⟨WF_next g, rfl, rfl⟩
      have h2 := ih g1 g' h1.1 h
      exact ⟨h2.1, by omega, by omega⟩

end Grid

namespace Grid

/-- Outer lookups on the wide grid: every row index 0–2 yields `wideRow`. -/
theorem wideGrid_row {i : Nat} (h : i ≤ 2) : wideGrid.grid[i]? = some wideRow := by
  have hi : i = 0 ∨ i = 1 ∨ i = 2 := by omega
  rcases hi with rfl | rfl | rfl <;> rfl

/-- Length of the wide row. -/
theorem wideRow_length : wideRow.length = 2 ^ 32 + 2 := by
  unfold wideRow
  rw [List.length_cons, List.length_replicate]

/-- Cells of the wide row beyond column 0 are all `Dead`. -/
theorem wideRow_getElem_pos {i : Nat} (h1 : 1 ≤ i) (h2 : i ≤ 2 ^ 32 + 1) :
    wideRow[i]? = some CellState.Dead := by
  obtain ⟨j, rfl⟩ : ∃ j, i = j + 1 := ⟨i - 1, by omega⟩
  unfold wideRow
  rw [List.getElem?_cons_succ, List.getElem?_replicate, if_pos (by omega)]

/-- The wide grid satisfies the shape invariant. -/
theorem wideGrid_WF : wideGrid.WF := by
  constructor
  · rfl
  · intro row hrow
    simp only [wideGrid, List.mem_cons, List.not_mem_nil, or_false] at hrow
    rcases hrow with rfl | rfl | rfl <;> rw [wideRow_length] <;> rfl

/-- Every cell of the wide grid in columns 2^32 - 1 through 2^32 + 1 — the
true neighborhood of column 2^32 — is `Dead`, in all three rows. -/
theorem wideGrid_get_dead {cx cy : Nat} (h1 : 2 ^ 32 - 1 ≤ cx)
    (h2 : cx ≤ 2 ^ 32 + 1) (h3 : cy ≤ 2) :
    wideGrid.get cx cy = some CellState.Dead := by
  unfold Grid.get
  rw [wideGrid_row h3]
  rw [Option.some_bind]
  exact wideRow_getElem_pos (by omega) (by omega)

/-- Evaluating the source's neighbor count at the in-range cell (2^32, 1) of
the wide grid: the truncating cast maps column 2^32 to 0, so the checked
lookups read columns -1, 0, 1 and find the two `Alive` cells of column 0 in
rows 0 and 2.  The offset additions 0 ± 1 and 1 ± 1 do not overflow, so every
build computes this value; only the cast truncates. -/
theorem wideGrid_count_eq_two : wideGrid.count_neighbors (2 ^ 32) 1 = 2 := by
  have ht1 : toI32 (2 ^ 32) = 0 := by unfold toI32; norm_num
  have ht2 : toI32 1 = 1 := by unfold toI32; norm_num
  have ha0m : addI32 0 (-1) = -1 := addI32_of_bounds (by norm_num) (by norm_num)
  have ha00 : addI32 0 0 = 0 := addI32_of_bounds (by norm_num) (by norm_num)
  have ha0p : addI32 0 1 = 1 := addI32_of_bounds (by norm_num) (by norm_num)
  have ha1m : addI32 1 (-1) = 0 := addI32_of_bounds (by norm_num) (by norm_num)
  have ha10 : addI32 1 0 = 1 := addI32_of_bounds (by norm_num) (by norm_num)
  have ha1p : addI32 1 1 = 2 := addI32_of_bounds (by norm_num) (by norm_num)
  have hLm : ∀ ny : Int, 0 ≤ ny → ny ≤ 2 → wideGrid.lookup (-1) ny = none := by
    intro ny hn1 hn2
    unfold Grid.lookup
    rw [i32ToUsize_of_nonneg hn1 (by omega), wideGrid_row (by omega)]
    rw [Option.some_bind]
    rw [i32ToUsize_neg_one]
    exact List.getElem?_eq_none (by rw [wideRow_length]; norm_num)
  have hL0 : ∀ ny : Int, 0 ≤ ny → ny ≤ 2 →
      wideGrid.lookup 0 ny = some CellState.Alive := by
    intro ny hn1 hn2
    unfold Grid.lookup
    rw [i32ToUsize_of_nonneg hn1 (by omega), wideGrid_row (by omega)]
    rw [Option.some_bind]
    rw [i32ToUsize_of_nonneg (by norm_num) (by norm_num)]
    rw [show ((0 : Int).toNat) = 0 from rfl]
    unfold wideRow
    rw [List.getElem?_cons_zero]
  have hL1 : ∀ ny : Int, 0 ≤ ny → ny ≤ 2 →
      wideGrid.lookup 1 ny = some CellState.Dead := by
    intro ny hn1 hn2
    unfold Grid.lookup
    rw [i32ToUsize_of_nonneg hn1 (by omega), wideGrid_row (by omega)]
    rw [Option.some_bind]
    rw [i32ToUsize_of_nonneg (by norm_num) (by norm_num)]
    rw [show ((1 : Int).toNat) = 1 from rfl]
    exact wideRow_getElem_pos (by norm_num) (by norm_num)
  have hLm0 := hLm 0 (by norm_num) (by norm_num)
  have hLm1 := hLm 1 (by norm_num) (by norm_num)
  have hLm2 := hLm 2 (by norm_num) (by norm_num)
  have hL00 := hL0 0 (by norm_num) (by norm_num)
  have hL02 := hL0 2 (by norm_num) (by norm_num)
  have hL10 := hL1 0 (by norm_num) (by norm_num)
  have hL11 := hL1 1 (by norm_num) (by norm_num)
  have hL12 := hL1 2 (by norm_num) (by norm_num)
  rw [count_neighbors_eq_sum]
  unfold Grid.neighborOffsets
  simp only [List.map_cons, List.map_nil, List.sum_cons, List.sum_nil,
    ht1, ht2, ha0m, ha00, ha0p, ha1m, ha10, ha1p,
    hLm0, hLm1, hLm2, hL00, hL02, hL10, hL11, hL12]
  decide

/-- The spec-level closed-boundary count at the same cell is 0: all eight
true neighbors of (2^32, 1) are `Dead`. -/
theorem wideGrid_spec_eq_zero : wideGrid.specNeighborCount (2 ^ 32) 1 = 0 := by
  unfold Grid.specNeighborCount
  refine List.sum_eq_zero ?_
  intro i hi
  simp only [List.mem_map] at hi
  obtain ⟨d, hd, rfl⟩ := hi
  obtain ⟨hd1, hd2, hd3, hd4⟩ := mem_neighborOffsets_bounds hd
  split_ifs with hc
  · obtain ⟨c1, c2, c3, c4, c5⟩ := hc
    rw [wideGrid_get_dead (by omega) (by omega) (by omega)] at c5
    simp at c5
  · rfl

end Grid

open Grid

/-- C1: for every grid and in-range cell (x, y), one call to
`next_cell_generation` leaves at (x, y) exactly the Game-of-Life rule table
applied to the prior state of (x, y) and `count_neighbors x y` evaluated on
the prior grid; every new state is derived from the same prior-generation
snapshot `g`, never from partially updated results. -/
theorem next_generation_applies_rule_table (g : Grid) (x y : Nat)
    (c : CellState) (hx : x < g.width) (hy : y < g.height)
    (hc : g.get x y = some c) :
    g.next_cell_generation.get x y
      = some (ruleTable c (g.count_neighbors x y)) := by
  rw [get_next g hx hy, hc]
  exact congrArg some (nextState_eq_ruleTable c _ (count_neighbors_le_eight g x y))

/-- Witness for C1 at a concrete 2×2 grid whose cell (0,0) is Alive with two
alive neighbors. -/
theorem next_generation_applies_rule_table_witness :
    (Grid.mk [[CellState.Alive, CellState.Alive],
        [CellState.Alive, CellState.Dead]] 2 2).next_cell_generation.get 0 0
      = some (ruleTable CellState.Alive
          ((Grid.mk [[CellState.Alive, CellState.Alive],
            [CellState.Alive, CellState.Dead]] 2 2).count_neighbors 0 0)) :=
  next_generation_applies_rule_table
    (Grid.mk [[CellState.Alive, CellState.Alive],
      [CellState.Alive, CellState.Dead]] 2 2) 0 0 CellState.Alive
    (by decide) (by decide) (by decide)

/-- C2: `get` and `set` called with x ≥ width or y ≥ height on a well-formed
grid fail with the out-of-bounds error (no silent clamping or wrapping): the
failed call produces no modified grid, so cells and dimensions are
untouched. -/
theorem get_set_out_of_bounds (g : Grid) (x y : Nat) (s : CellState)
    (hwf : g.WF) (h : g.width ≤ x ∨ g.height ≤ y) :
    g.set x y s = none ∧ g.get x y = none := by
  obtain ⟨hlen, hrow⟩ := hwf
  unfold Grid.set Grid.get
  rcases hb : g.grid[y]? with _ | row
  · exact ⟨rfl, rfl⟩
  · have hylt : y < g.grid.length := (List.getElem?_eq_some_iff.1 hb).1
    have hw : row.length = g.width := hrow row (List.getElem?_mem hb)
    refine ⟨?_, ?_⟩
    · show (if x < row.length then
        some { g with grid := g.grid.set y (row.set x s) } else none) = none
      rw [if_neg (by omega)]
    · show row[x]? = none
      exact List.getElem?_eq_none (by omega)

/-- Witness for C2 at a concrete 3×3 grid and x = 5 ≥ width. -/
theorem get_set_out_of_bounds_witness :
    (Grid.new 3 3).set 5 1 CellState.Alive = none ∧
      (Grid.new 3 3).get 5 1 = none :=
  get_set_out_of_bounds (Grid.new 3 3) 5 1 CellState.Alive (by decide)
    (Or.inl (by decide))

/-- C3 counterexample: `new 0 5` is not rejected — the constructor performs
no dimension check and returns a grid of five empty rows with zero cells, so
no InvalidDimensions error can be raised. -/
theorem new_zero_width_not_rejected :
    Grid.new 0 5 = Grid.mk [[], [], [], [], []] 0 5 ∧
      (Grid.new 0 5).cellCount = 0 := by decide

/-- C3 amended: construction with a zero dimension succeeds with defined
zero-size behavior — the stored dimensions are as requested and the grid
holds no cells; no InvalidDimensions rejection exists. -/
theorem new_zero_dimension_defined (w h : Nat) (hz : w = 0 ∨ h = 0) :
    (Grid.new w h).width = w ∧ (Grid.new w h).height = h ∧
      (Grid.new w h).cellCount = 0 := by
  refine ⟨rfl, rfl, ?_⟩
  rcases hz with rfl | rfl
  · simp [Grid.new, cellCount]
  · simp [Grid.new, cellCount]

/-- Witness for the amended C3 at width 0, height 7. -/
theorem new_zero_dimension_defined_witness :
    (Grid.new 0 7).width = 0 ∧ (Grid.new 0 7).height = 7 ∧
      (Grid.new 0 7).cellCount = 0 :=
  new_zero_dimension_defined 0 7 (Or.inl rfl)

/-- C4 counterexample: at the in-range cell (2^32, 1) of the well-formed
wide grid, the source's `count_neighbors` returns 2 — the truncating
`x as i32` cast maps column 2^32 to 0, so the lookups wrap to the opposite
edge and find the Alive cells of column 0 — while the claim's 8-offset
closed-boundary sum over the true targets is 0.  The wrap happens in every
build: only the cast truncates here, the offset additions do not
overflow. -/
theorem count_neighbors_wraps_at_edge :
    wideGrid.WF ∧ 2 ^ 32 < wideGrid.width ∧ 1 < wideGrid.height ∧
      wideGrid.count_neighbors (2 ^ 32) 1 = 2 ∧
      wideGrid.specNeighborCount (2 ^ 32) 1 = 0 :=
  ⟨wideGrid_WF, by norm_num [wideGrid], by norm_num [wideGrid],
    wideGrid_count_eq_two, wideGrid_spec_eq_zero⟩

/-- C4 amended: on a well-formed grid whose dimensions are below 2^31 — so
the `usize → i32` casts preserve every in-range coordinate and the offset
additions cannot overflow in any build; on wider or taller grids the
truncating cast wraps the lookups near column or row 2^32 onto the opposite
edge — `count_neighbors` at an in-range cell equals the spec's sum over
exactly the 8 offsets, where a target outside [0, width) × [0, height)
contributes zero and no offset wraps; in particular corner (0,0) of a 3×3
grid counts at most 3 neighbors. -/
theorem count_neighbors_matches_offsets (g : Grid) (hwf : g.WF)
    (hW : g.width < 2 ^ 31) (hH : g.height < 2 ^ 31) :
    (∀ x y : Nat, x < g.width → y < g.height →
        g.count_neighbors x y = g.specNeighborCount x y) ∧
      (g.width = 3 → g.height = 3 → g.count_neighbors 0 0 ≤ 3) := by
  constructor
  · intro x y hx hy
    exact count_neighbors_eq_spec g hwf hW hH x y (by omega) (by omega)
  · intro hw hh
    rw [count_neighbors_eq_spec g hwf hW hH 0 0 (by norm_num) (by norm_num)]
    unfold Grid.specNeighborCount Grid.neighborOffsets
    norm_num
    split_ifs <;> omega

/-- Witness for the amended C4 at a concrete well-formed 3×3 grid. -/
theorem count_neighbors_matches_offsets_witness :
    (∀ x y : Nat, x < (Grid.new 3 3).width → y < (Grid.new 3 3).height →
        (Grid.new 3 3).count_neighbors x y
          = (Grid.new 3 3).specNeighborCount x y) ∧
      ((Grid.new 3 3).width = 3 → (Grid.new 3 3).height = 3 →
        (Grid.new 3 3).count_neighbors 0 0 ≤ 3) :=
  count_neighbors_matches_offsets (Grid.new 3 3) (by decide) (by decide)
    (by decide)

/-- C5 counterexample: calling `count_neighbors` with the out-of-bounds
center (3, 1) on a 3×3 grid raises no error — it silently returns 1, counting
the in-range Alive cell at (2, 1). -/
theorem count_neighbors_oob_center_returns :
    (Grid.new 3 3).set 2 1 CellState.Alive
        = some (Grid.mk
            [[CellState.Dead, CellState.Dead, CellState.Dead],
             [CellState.Dead, CellState.Dead, CellState.Alive],
             [CellState.Dead, CellState.Dead, CellState.Dead]] 3 3) ∧
      (Grid.mk
        [[CellState.Dead, CellState.Dead, CellState.Dead],
         [CellState.Dead, CellState.Dead, CellState.Alive],
         [CellState.Dead, CellState.Dead, CellState.Dead]] 3 3).count_neighbors
          3 1 = 1 := by decide

/-- C5 amended: in the coordinate range where the source's `i32` cast
arithmetic is exact — grid dimensions below 2^31 and center components at
most 2^31 - 2; at and beyond that boundary the offset additions overflow
(a build with overflow checks panics, one without wraps) or the cast
truncates — `count_neighbors` with an out-of-bounds center is not an error:
the call silently returns the count of Alive cells among the in-range
targets of the 8 offsets (its checked lookups treat every out-of-range
target as absent). -/
theorem count_neighbors_oob_center_silent (g : Grid) (x y : Nat) (hwf : g.WF)
    (hW : g.width < 2 ^ 31) (hH : g.height < 2 ^ 31)
    (hx : x ≤ 2 ^ 31 - 2) (hy : y ≤ 2 ^ 31 - 2)
    (_h : g.width ≤ x ∨ g.height ≤ y) :
    g.count_neighbors x y = g.specNeighborCount x y :=
  count_neighbors_eq_spec g hwf hW hH x y hx hy

/-- Witness for the amended C5 at center (5, 5) of a 3×3 grid. -/
theorem count_neighbors_oob_center_silent_witness :
    (Grid.new 3 3).count_neighbors 5 5 = (Grid.new 3 3).specNeighborCount 5 5 :=
  count_neighbors_oob_center_silent (Grid.new 3 3) 5 5 (by decide) (by decide)
    (by decide) (by decide) (by decide) (Or.inl (by decide))

/-- C6: on a 5×5 grid, the vertical blinker at column 2, rows 1–3 (built by
three `set` calls on a fresh grid) becomes the horizontal line at row 2,
columns 1–3 after one generation, and returns to the original grid after a
second generation. -/
theorem blinker_oscillates :
    (((Grid.new 5 5).set 2 1 CellState.Alive).bind fun g =>
        (g.set 2 2 CellState.Alive).bind fun g => g.set 2 3 CellState.Alive)
        = some (Grid.mk
            [[CellState.Dead, CellState.Dead, CellState.Dead, CellState.Dead, CellState.Dead],
             [CellState.Dead, CellState.Dead, CellState.Alive, CellState.Dead, CellState.Dead],
             [CellState.Dead, CellState.Dead, CellState.Alive, CellState.Dead, CellState.Dead],
             [CellState.Dead, CellState.Dead, CellState.Alive, CellState.Dead, CellState.Dead],
             [CellState.Dead, CellState.Dead, CellState.Dead, CellState.Dead, CellState.Dead]] 5 5) ∧
      (Grid.mk
        [[CellState.Dead, CellState.Dead, CellState.Dead, CellState.Dead, CellState.Dead],
         [CellState.Dead, CellState.Dead, CellState.Alive, CellState.Dead, CellState.Dead],
         [CellState.Dead, CellState.Dead, CellState.Alive, CellState.Dead, CellState.Dead],
         [CellState.Dead, CellState.Dead, CellState.Alive, CellState.Dead, CellState.Dead],
         [CellState.Dead, CellState.Dead, CellState.Dead, CellState.Dead, CellState.Dead]] 5 5).next_cell_generation
        = Grid.mk
            [[CellState.Dead, CellState.Dead, CellState.Dead, CellState.Dead, CellState.Dead],
             [CellState.Dead, CellState.Dead, CellState.Dead, CellState.Dead, CellState.Dead],
             [CellState.Dead, CellState.Alive, CellState.Alive, CellState.Alive, CellState.Dead],
             [CellState.Dead, CellState.Dead, CellState.Dead, CellState.Dead, CellState.Dead],
             [CellState.Dead, CellState.Dead, CellState.Dead, CellState.Dead, CellState.Dead]] 5 5 ∧
      (Grid.mk
        [[CellState.Dead, CellState.Dead, CellState.Dead, CellState.Dead, CellState.Dead],
         [CellState.Dead, CellState.Dead, CellState.Dead, CellState.Dead, CellState.Dead],
         [CellState.Dead, CellState.Alive, CellState.Alive, CellState.Alive, CellState.Dead],
         [CellState.Dead, CellState.Dead, CellState.Dead, CellState.Dead, CellState.Dead],
         [CellState.Dead, CellState.Dead, CellState.Dead, CellState.Dead, CellState.Dead]] 5 5).next_cell_generation
        = Grid.mk
            [[CellState.Dead, CellState.Dead, CellState.Dead, CellState.Dead, CellState.Dead],
             [CellState.Dead, CellState.Dead, CellState.Alive, CellState.Dead, CellState.Dead],
             [CellState.Dead, CellState.Dead, CellState.Alive, CellState.Dead, CellState.Dead],
             [CellState.Dead, CellState.Dead, CellState.Alive, CellState.Dead, CellState.Dead],
             [CellState.Dead, CellState.Dead, CellState.Dead, CellState.Dead, CellState.Dead]] 5 5 := by
  decide

/-- C7: an in-range `set` on a well-formed grid succeeds, writes exactly the
one cell, leaves every other cell's state unchanged, and keeps width and
height. -/
theorem set_writes_single_cell (g : Grid) (x y : Nat) (s : CellState)
    (hwf : g.WF) (hx : x < g.width) (hy : y < g.height) :
    ∃ g', g.set x y s = some g' ∧ g'.width = g.width ∧ g'.height = g.height ∧
      g'.get x y = some s ∧
      ∀ u v : Nat, ¬(u = x ∧ v = y) → g'.get u v = g.get u v := by
  obtain ⟨g', h1, h2, h3, _, h5, h6⟩ := set_spec g hwf hx hy s
  exact ⟨g', h1, h2, h3, h5, h6⟩

/-- Witness for C7 at cell (0, 1) of a fresh 2×2 grid. -/
theorem set_writes_single_cell_witness :
    ∃ g', (Grid.new 2 2).set 0 1 CellState.Alive = some g' ∧
      g'.width = (Grid.new 2 2).width ∧ g'.height = (Grid.new 2 2).height ∧
      g'.get 0 1 = some CellState.Alive ∧
      ∀ u v : Nat, ¬(u = 0 ∧ v = 1) → g'.get u v = (Grid.new 2 2).get u v :=
  set_writes_single_cell (Grid.new 2 2) 0 1 CellState.Alive (by decide)
    (by decide) (by decide)

/-- C8: a grid built by `new w h` holds exactly w * h cells (one per in-range
coordinate), and after any successful sequence of `set` and
`next_cell_generation` calls its width, height, shape invariant, and cell
count are unchanged from construction. -/
theorem shape_invariant_preserved (w h : Nat) (ops : List Op) (g' : Grid)
    (happ : Grid.applyOps (Grid.new w h) ops = some g') :
    g'.width = w ∧ g'.height = h ∧ g'.WF ∧ g'.cellCount = w * h := by
  obtain ⟨hwf, hW, hH⟩ := applyOps_preserves ops (Grid.new w h) g' (WF_new w h) happ
  refine ⟨hW, hH, hwf, ?_⟩
  rw [cellCount_of_WF g' hwf, hW, hH]
  exact Nat.mul_comm h w

/-- Witness for C8: one write then one generation step on a 1×1 grid. -/
theorem shape_invariant_preserved_witness :
    (Grid.mk [[CellState.Dead]] 1 1).width = 1 ∧
      (Grid.mk [[CellState.Dead]] 1 1).height = 1 ∧
      (Grid.mk [[CellState.Dead]] 1 1).WF ∧
      (Grid.mk [[CellState.Dead]] 1 1).cellCount = 1 * 1 :=
  shape_invariant_preserved 1 1 [Op.write 0 0 CellState.Alive, Op.step]
    (Grid.mk [[CellState.Dead]] 1 1) (by decide)

/-- C9: for every grid and in-range cell, `count_neighbors` returns at most 8;
and on any grid freshly created by `new` (no cell ever set Alive),
`count_neighbors` returns 0 at every coordinate. -/
theorem count_neighbors_bounds (g : Grid) (x y : Nat)
    (_hx : x < g.width) (_hy : y < g.height) :
    g.count_neighbors x y ≤ 8 ∧
      ∀ w h u v : Nat, (Grid.new w h).count_neighbors u v = 0 :=
  ⟨count_neighbors_le_eight g x y, fun w h u v => count_neighbors_new w h u v⟩

/-- Witness for C9 at cell (1, 2) of a 4×4 grid. -/
theorem count_neighbors_bounds_witness :
    (Grid.new 4 4).count_neighbors 1 2 ≤ 8 ∧
      ∀ w h u v : Nat, (Grid.new w h).count_neighbors u v = 0 :=
  count_neighbors_bounds (Grid.new 4 4) 1 2 (by decide) (by decide)

/-- C10: `new` with width 0 or height 0 succeeds and yields a grid with no
cells, and `next_cell_generation` on such a zero-sized grid completes (both
operations are total functions in the code — there is no failure path) and
returns the grid unchanged, dimensions included. -/
theorem zero_sized_grid_safe (w h : Nat) (hz : w = 0 ∨ h = 0) :
    (Grid.new w h).cellCount = 0 ∧
      (Grid.new w h).next_cell_generation = Grid.new w h := by
  constructor
  · rcases hz with rfl | rfl <;> simp [Grid.new, cellCount]
  · rcases hz with rfl | rfl
    · unfold Grid.next_cell_generation Grid.new
      simp [List.map_const']
    · unfold Grid.next_cell_generation Grid.new
      simp

/-- Witness for C10 at width 0, height 4. -/
theorem zero_sized_grid_safe_witness :
    (Grid.new 0 4).cellCount = 0 ∧
      (Grid.new 0 4).next_cell_generation = Grid.new 0 4 :=
  zero_sized_grid_safe 0 4 (Or.inl rfl)
